import Mathlib

/-!
Verification of the tool-invocation core of the `mcp-client` repository.

The TypeScript sources are shallowly embedded: pure functions become Lean
functions, the browser `localStorage` becomes an explicit association list of
key/value pairs, network and model calls become oracle parameters, and the
side-effecting orchestration code is modelled as a pure function that also
returns the ordered trace of the externally visible effects it performs.
-/

/-! ## JavaScript string primitives

The embedded code uses `String.prototype.includes`, `startsWith`,
`replace` (first occurrence), `toLowerCase` and `trim`.  They are modelled
on the character list underlying a `String`.
-/

/-- JS `pat ⊑ s` occurrence test on character lists: does `pat` occur as a
contiguous substring of `s`? -/
def jsIncludesL (pat : List Char) : List Char → Bool
  | [] => pat.isEmpty
  | c :: cs => pat.isPrefixOf (c :: cs) || jsIncludesL pat cs

/-- JS `s.includes(pat)`. -/
def jsIncludes (s pat : String) : Bool :=
  jsIncludesL pat.data s.data

/-- JS `s.startsWith(pat)`. -/
def jsStartsWith (s pat : String) : Bool :=
  pat.data.isPrefixOf s.data

/-- Replace the first (leftmost) occurrence of `pat` by the empty string:
JS `s.replace(pat, '')` for a plain-string pattern. -/
def jsReplaceFirstL (pat : List Char) : List Char → List Char
  | [] => []
  | c :: cs =>
    if pat.isPrefixOf (c :: cs) then (c :: cs).drop pat.length
    else c :: jsReplaceFirstL pat cs

/-- JS `s.replace(pat, '')` (first occurrence only). -/
def jsReplaceFirst (s pat : String) : String :=
  String.mk (jsReplaceFirstL pat.data s.data)

/-- JS `s.toLowerCase()` (the tool names involved are ASCII). -/
def jsToLower (s : String) : String :=
  String.mk (s.data.map Char.toLower)

/-- ASCII whitespace, for `trim`. -/
def jsWhitespace (c : Char) : Bool :=
  c = ' ' || c = '\t' || c = '\n' || c = '\r'

/-- JS `s.trim()` (over ASCII whitespace): drop leading and trailing
whitespace. -/
def jsTrim (s : String) : String :=
  String.mk (((s.data.dropWhile jsWhitespace).reverse.dropWhile jsWhitespace).reverse)

/-! ## Risk classifier

`determineToolRiskLevel` is the Risk Classifier of
`src/app/utils/tool-registry.ts`; it assigns the `riskLevel` of every
registered tool.  `determineRiskLevel` is the separate copy living in the
permission module (`src/app/utils/tool-permissions.ts`); it is embedded as
well so the two can be compared.
-/

inductive RiskLevel where
  | low
  | medium
  | high
deriving DecidableEq, Repr

/-- `determineToolRiskLevel` from `src/app/utils/tool-registry.ts`. -/
def determineToolRiskLevel (toolName : String) : RiskLevel :=
  let name := jsToLower toolName
  if jsIncludes name "delete" || jsIncludes name "remove" ||
     jsIncludes name "destroy" || jsIncludes name "create" ||
     jsIncludes name "update" || jsIncludes name "modify" ||
     jsIncludes name "merge" || jsIncludes name "close" ||
     jsIncludes name "approve" then
    .high
  else if jsIncludes name "write" || jsIncludes name "send" ||
     jsIncludes name "execute" || jsIncludes name "run" ||
     jsIncludes name "upload" || jsIncludes name "post" ||
     jsIncludes name "put" || jsIncludes name "patch" ||
     jsIncludes name "comment" || jsIncludes name "assign" then
    .medium
  else
    .low

/-- `determineRiskLevel` from `src/app/utils/tool-permissions.ts` (the copy
used only to frame the permission dialog).  Note: no `toLowerCase`, and
shorter word lists. -/
def determineRiskLevel (name : String) : RiskLevel :=
  if jsIncludes name "delete" || jsIncludes name "remove" ||
     jsIncludes name "destroy" || jsIncludes name "create" ||
     jsIncludes name "update" || jsIncludes name "modify" then
    .high
  else if jsIncludes name "write" || jsIncludes name "send" ||
     jsIncludes name "execute" || jsIncludes name "run" ||
     jsIncludes name "upload" then
    .medium
  else
    .low

/-- The high-risk word list as stated by the specification. -/
def highRiskWords : List String :=
  ["delete", "remove", "destroy", "create", "update", "modify", "merge",
   "close", "approve"]

/-- The medium-risk word list as stated by the specification. -/
def mediumRiskWords : List String :=
  ["write", "send", "execute", "run", "upload", "post", "put", "patch",
   "comment", "assign"]

/-- The classifier exactly as the specification words it: case-insensitive
substring match against the two ordered word lists, high before medium,
first match wins, default low. -/
def classifySpec (toolName : String) : RiskLevel :=
  let name := jsToLower toolName
  if highRiskWords.any (fun w => jsIncludes name w) then .high
  else if mediumRiskWords.any (fun w => jsIncludes name w) then .medium
  else .low

/-! ## Schema translator (`src/app/utils/tool-registry.ts`)

`convertToZodSchema` produces the validation schema and
`convertToJsonSchema` the model-facing schema of a tool's declared
parameter schema.
-/

/-- One property of a tool parameter schema: `{type?, description?}`. -/
structure PropertySchema where
  type : Option String
  description : Option String
deriving DecidableEq, Repr

/-- A tool's declared `inputSchema`: `{type, properties?, required?}`. -/
structure InputSchema where
  type : String
  properties : Option (List (String × PropertySchema))
  required : Option (List String)
deriving DecidableEq, Repr

/-- The base Zod combinators the translators produce. -/
inductive ZodBase where
  | zstring
  | znumber
  | zboolean
  | zarrayUnknown
  | zarrayAny
  | zunknown
  | zany
deriving DecidableEq, Repr

/-- One field of a produced `z.object`: base combinator, carried
description, and whether `.optional()` was applied. -/
structure ZodField where
  base : ZodBase
  description : Option String
  optional : Bool
deriving DecidableEq, Repr

/-- A produced `z.object({...})`, as its ordered field list. -/
abbrev ZodObjectSchema := List (String × ZodField)

/-- One property of the produced JSON schema. -/
structure JsonPropertySchema where
  type : String
  items : Option String
  description : Option String
deriving DecidableEq, Repr

/-- The produced model-facing JSON schema. -/
structure JsonObjectSchema where
  type : String
  properties : List (String × JsonPropertySchema)
  required : List String
deriving DecidableEq, Repr

/-- The `switch (propSchema.type)` of `convertToZodSchema`: base combinator
chosen for a declared property type. -/
def zodBaseFor : Option String → ZodBase
  | some "string" => .zstring
  | some "number" => .znumber
  | some "boolean" => .zboolean
  | some "array" => .zarrayUnknown
  | _ => .zunknown

/-- The `switch (propSchema.type)` of `convertToJsonSchema`: produced JSON
property for a declared property type (the default branch emits
`type: "string"`, and arrays get `items: {type: "string"}`). -/
def jsonPropFor (t : Option String) (desc : Option String) : JsonPropertySchema :=
  match t with
  | some "string" => ⟨"string", none, desc⟩
  | some "number" => ⟨"number", none, desc⟩
  | some "boolean" => ⟨"boolean", none, desc⟩
  | some "array" => ⟨"array", some "string", desc⟩
  | _ => ⟨"string", none, desc⟩

/-- One field entry of the produced `z.object`: base combinator per the
switch, the carried description, and `.optional()` exactly when the key is
not in `required`. -/
def zodFieldEntry (required : List String) (p : String × PropertySchema) :
    String × ZodField :=
  (p.1, ⟨zodBaseFor p.2.type, p.2.description, !(required.contains p.1)⟩)

/-- One property entry of the produced JSON schema. -/
def jsonPropEntry (p : String × PropertySchema) :
    String × JsonPropertySchema :=
  (p.1, jsonPropFor p.2.type p.2.description)

/-- `convertToZodSchema` from `src/app/utils/tool-registry.ts`.  The
`describe` wrapper is modelled by carrying the property description. -/
def convertToZodSchema (inputSchema : Option InputSchema) : ZodObjectSchema :=
  match inputSchema with
  | none => []
  | some s =>
    if s.type ≠ "object" then []
    else (s.properties.getD []).map (zodFieldEntry (s.required.getD []))

/-- `convertToJsonSchema` from `src/app/utils/tool-registry.ts`. -/
def convertToJsonSchema (inputSchema : Option InputSchema) : JsonObjectSchema :=
  match inputSchema with
  | none => ⟨"object", [], []⟩
  | some s =>
    if s.type ≠ "object" then ⟨"object", [], []⟩
    else
      ⟨"object", (s.properties.getD []).map jsonPropEntry, s.required.getD []⟩

/-! ### Acceptance semantics for the produced schemas -/

/-- JSON-compatible argument values. -/
inductive JsonValue where
  | jnull
  | jbool (b : Bool)
  | jnum (n : Int)
  | jstr (s : String)
  | jarr (elems : List JsonValue)
  | jobj (fields : List (String × JsonValue))

/-- Which values a base Zod combinator accepts. -/
def zodBaseAccepts : ZodBase → JsonValue → Bool
  | .zstring, .jstr _ => true
  | .zstring, _ => false
  | .znumber, .jnum _ => true
  | .znumber, _ => false
  | .zboolean, .jbool _ => true
  | .zboolean, _ => false
  | .zarrayUnknown, .jarr _ => true
  | .zarrayUnknown, _ => false
  | .zarrayAny, .jarr _ => true
  | .zarrayAny, _ => false
  | .zunknown, _ => true
  | .zany, _ => true

/-- Which values a JSON-schema `type` keyword accepts. -/
def jsonTypeAccepts (t : String) (v : JsonValue) : Bool :=
  match t with
  | "string" => match v with | .jstr _ => true | _ => false
  | "number" => match v with | .jnum _ => true | _ => false
  | "boolean" => match v with | .jbool _ => true | _ => false
  | "array" => match v with | .jarr _ => true | _ => false
  | "object" => match v with | .jobj _ => true | _ => false
  | _ => true

/-- The property types the specification calls recognized. -/
def isRecognizedType : Option String → Bool
  | some t => ["string", "number", "boolean", "array"].contains t
  | none => false

/-- A concrete descriptor whose single property `p` has the unrecognized
type `integer`. -/
def integerPropSchema : Option InputSchema :=
  some ⟨"object", some [("p", ⟨some "integer", none⟩)], some []⟩

/-! ## Tool registry filtering (`src/app/utils/tool-registry.ts`) -/

/-- `MCPToolDefinition` from `src/app/utils/tool-registry.ts`. -/
structure MCPToolDefinition where
  name : String
  description : Option String
  serviceId : String
  inputSchema : Option InputSchema
deriving DecidableEq, Repr

/-- `AISDKTool` (without its `execute` closure, which is modelled in the
invocation flow). -/
structure AISDKTool where
  name : String
  description : String
  parameters : ZodObjectSchema
  jsonSchema : JsonObjectSchema
  serviceId : String
  riskLevel : RiskLevel
deriving DecidableEq, Repr

/-- `convertToAISDKTool` from `src/app/utils/tool-registry.ts`. -/
def convertToAISDKTool (t : MCPToolDefinition) : AISDKTool :=
  { name := t.name
    description := t.description.getD "MCP tool"
    parameters := convertToZodSchema t.inputSchema
    jsonSchema := convertToJsonSchema t.inputSchema
    serviceId := t.serviceId
    riskLevel := determineToolRiskLevel t.name }

/-- The `"{serviceId}:{toolName}"` key of the tool-selection mapping. -/
def toolSelectionKey (t : MCPToolDefinition) : String :=
  t.serviceId ++ ":" ++ t.name

/-- `ToolSelectionState`: the persisted `"serviceId:toolName" → boolean`
mapping. -/
abbrev ToolSelectionState := List (String × Bool)

/-- The per-tool filter of `refreshTools`:
`toolSelection[toolId] ?? true`. -/
def isSelectedIn (sel : ToolSelectionState) (t : MCPToolDefinition) : Bool :=
  (sel.lookup (toolSelectionKey t)).getD true

/-- The selection-filter stage of `refreshTools`. -/
def filterBySelection (tools : List MCPToolDefinition)
    (sel : ToolSelectionState) : List MCPToolDefinition :=
  tools.filter (isSelectedIn sel)

/-- The `aiTools` manifest computed by `refreshTools`: filter by the
selection state, then convert. -/
def refreshToolsAiTools (tools : List MCPToolDefinition)
    (sel : ToolSelectionState) : List AISDKTool :=
  (filterBySelection tools sel).map convertToAISDKTool

/-! ## Tool-count ceiling (`src/app/utils/use-chat.ts`) -/

/-- `MAX_TOOLS_PER_REQUEST` from `src/app/utils/use-chat.ts`. -/
def MAX_TOOLS_PER_REQUEST : Nat := 30

/-- What the custom `handleSubmit` does with a submission: refuse with a
warning toast, or hand the unchanged tool list to the chat request. -/
inductive SubmitOutcome (α : Type) where
  | refused (warning : String)
  | submitted (tools : List α)
deriving DecidableEq, Repr

/-- The warning toast text of `handleSubmit`. -/
def toolLimitWarning (n : Nat) : String :=
  "Tool limit exceeded: " ++ toString n ++ " tools available, but only " ++
  toString MAX_TOOLS_PER_REQUEST ++
  " tools can be used per request. Please disable some tools in Available Actions."

/-- The custom `handleSubmit` of `src/app/utils/use-chat.ts`: check the
tool limit before submitting; on excess, warn and return without
submitting; otherwise submit with the unaltered tool list. -/
def handleSubmit {α : Type} (toolsForAI : List α) : SubmitOutcome α :=
  if toolsForAI.length > MAX_TOOLS_PER_REQUEST then
    .refused (toolLimitWarning toolsForAI.length)
  else
    .submitted toolsForAI

/-- C4: the Risk Classifier agrees with the specification's word-list
description on every tool name, and classifies `delete_repo` high. -/
theorem determineToolRiskLevel_eq_classifySpec :
    (∀ toolName, determineToolRiskLevel toolName = classifySpec toolName) ∧
    determineToolRiskLevel "delete_repo" = .high := by
  constructor
  · intro toolName
    simp only [determineToolRiskLevel, classifySpec, highRiskWords,
      mediumRiskWords, List.any_cons, List.any_nil, Bool.or_false,
      Bool.or_assoc]
  · decide

/-- The permission-dialog copy of the classifier is not the word-list
classifier of the specification: it is case-sensitive and misses the
`merge`/`close`/`approve` and `post`/`put`/`patch`/`comment`/`assign`
words. -/
theorem riskClassifier_copies_disagree :
    determineRiskLevel "Merge_PR" = .low ∧
    determineToolRiskLevel "Merge_PR" = .high := by
  constructor
  · decide
  · decide

/-! ## Config store (`src/app/utils/storage.ts`)

`localStorage` is modelled as an ordered list of key/value pairs
(`localStorage.key(i)` enumerates in list order, `getItem` is first
lookup).  Values are modelled post-`JSON.parse`: `saveServiceConfig`
stores a serialized service config and `saveToolSelection` stores a
serialized selection mapping, and `JSON.parse ∘ JSON.stringify` is the
identity on both, so a stored value is either a config object or a
selection object.  Reading `.url` off a selection object yields JS
`undefined`, modelled as `none`.
-/

/-- A value found in `localStorage` under an `mcp-client`-prefixed key. -/
inductive StoredValue where
  | config (url : String) (bearerToken : Option String)
  | selection (entries : List (String × Bool))
deriving DecidableEq, Repr

/-- The runtime shape a stored value has when the code treats it as an
`MCPHttpConfig`: `.url` is `undefined` on a selection object. -/
structure RuntimeConfig where
  url : Option String
  bearerToken : Option String
deriving DecidableEq, Repr

/-- JS property access `config.url` / `config.bearerToken` on a parsed
stored value. -/
def StoredValue.toRuntimeConfig : StoredValue → RuntimeConfig
  | .config u b => ⟨some u, b⟩
  | .selection _ => ⟨none, none⟩

/-- The full browser storage, in enumeration order. -/
abbrev LocalStorage := List (String × StoredValue)

/-- `STORAGE_PREFIX` from `src/app/utils/storage.ts`. -/
def STORAGE_PREFIX : String := "mcp-client"

/-- `getStorageKey` from `src/app/utils/storage.ts`. -/
def getStorageKey (serviceId : String) : String :=
  STORAGE_PREFIX ++ "-" ++ serviceId

/-- The distinguished tool-selection key. -/
def TOOL_SELECTION_KEY : String := STORAGE_PREFIX ++ "-tool-selection"

/-- `loadServiceConfig`: `getItem` of the service key, parsed. -/
def loadServiceConfig (st : LocalStorage) (serviceId : String) :
    Option StoredValue :=
  st.lookup (getStorageKey serviceId)

/-- `getServiceIds`: every key starting with the prefix, with the first
occurrence of `"mcp-client-"` removed. -/
def getServiceIds (st : LocalStorage) : List String :=
  st.filterMap fun p =>
    if jsStartsWith p.1 STORAGE_PREFIX then
      some (jsReplaceFirst p.1 (STORAGE_PREFIX ++ "-"))
    else none

/-- `getAllServiceConfigs`: for every prefixed key, re-load by the derived
service id and keep the truthy results. -/
def getAllServiceConfigs (st : LocalStorage) : List (String × StoredValue) :=
  st.filterMap fun p =>
    if jsStartsWith p.1 STORAGE_PREFIX then
      match loadServiceConfig st (jsReplaceFirst p.1 (STORAGE_PREFIX ++ "-")) with
      | some cfg => some (jsReplaceFirst p.1 (STORAGE_PREFIX ++ "-"), cfg)
      | none => none
    else none

/-- `loadAllServiceConfigs`: keys starting with `"mcp-client-"` and not
containing `"-tool-selection"`, parsed in place. -/
def loadAllServiceConfigs (st : LocalStorage) : List (String × StoredValue) :=
  st.filterMap fun p =>
    if jsStartsWith p.1 (STORAGE_PREFIX ++ "-") &&
       !(jsIncludes p.1 "-tool-selection") then
      some (jsReplaceFirst p.1 (STORAGE_PREFIX ++ "-"), p.2)
    else none

/-- `loadToolSelection`: the parsed selection mapping, `{}` when absent. -/
def loadToolSelection (st : LocalStorage) : ToolSelectionState :=
  match st.lookup TOOL_SELECTION_KEY with
  | some (.selection entries) => entries
  | _ => []

/-! ## Remote capability client (`src/app/actions/mcp.ts`)

Each `MCPServerClient` instance is identified by a fresh number.  Every
operation returns its result, the ordered trace of connection events it
performs (`connect` = `client.connect`, `oper` = the single protocol
operation, `disconnect` = the `finally`-block disconnect attempt), and the
updated module state (`clientPool` and the id supply).  Network and
protocol outcomes are oracle parameters (`Except` values), as is URL
syntax validity (`new URL`).
-/

/-- Connection-lifecycle events, by client id. -/
inductive ConnEvent where
  | connect (id : Nat)
  | oper (id : Nat) (name : String)
  | disconnect (id : Nat)
deriving DecidableEq, Repr

/-- The module-level state of `src/app/actions/mcp.ts`: the `clientPool`
map plus the supply of fresh client ids. -/
structure ServerState where
  nextClientId : Nat
  clientPool : List (String × Nat)
deriving DecidableEq, Repr

/-- The `{success, content?, isError?, error?}` result of the tool-call
actions. -/
structure CallToolResult where
  success : Bool
  content : Option (List String)
  isError : Option Bool
  error : Option String
deriving DecidableEq, Repr

/-- The `{success, value?, error?}` result of the list/get/read actions,
with `value` the payload field (`tools`, `prompts`, `resources`,
`contents`, or a prompt body). -/
structure ListResult (α : Type) where
  success : Bool
  value : Option α
  error : Option String
deriving DecidableEq, Repr

/-- The error-message classification in `testMCPConnection`'s catch
block. -/
def classifyTestError (msg : String) (url : String) : String :=
  if jsIncludes msg "Failed to fetch" then
    "Cannot reach server at " ++ url ++ ". Please check:\n        • Server is running and accessible\n        • URL is correct (including protocol)\n        • No CORS restrictions\n        • Network connectivity"
  else if jsIncludes msg "CORS" then
    "CORS error: The server needs to allow requests from this domain."
  else if jsIncludes msg "NetworkError" then
    "Network error: Cannot connect to " ++ url ++ ". Check if the server is running."
  else msg

/-- `testMCPConnection`: validate the URL, then connect, list tools, and
always disconnect the test client in the `finally` block. -/
def testMCPConnection (s : ServerState) (cfg : RuntimeConfig)
    (validUrl : String → Bool) (connectRes : Except String Unit)
    (listRes : Except String (List MCPToolDefinition)) :
    ListResult (List MCPToolDefinition) × List ConnEvent × ServerState :=
  match cfg.url with
  | none => (⟨false, none, some "URL is required for HTTP transport"⟩, [], s)
  | some u =>
    if u = "" || jsTrim u = "" then
      (⟨false, none, some "URL is required for HTTP transport"⟩, [], s)
    else if !(validUrl u) then
      (⟨false, none, some ("Invalid URL format: " ++ u)⟩, [], s)
    else
      let id := s.nextClientId
      let s1 := { s with nextClientId := s.nextClientId + 1 }
      match connectRes with
      | .error e =>
        (⟨false, none, some (classifyTestError ("MCP connection failed: " ++ e) u)⟩,
         [.connect id, .disconnect id], s1)
      | .ok _ =>
        match listRes with
        | .error e =>
          (⟨false, none, some (classifyTestError ("Failed to list tools: " ++ e) u)⟩,
           [.connect id, .oper id "listTools", .disconnect id], s1)
        | .ok tools =>
          (⟨true, some tools, none⟩,
           [.connect id, .oper id "listTools", .disconnect id], s1)

/-- `callMCPToolWithConfig`: the stateless tool call — create a fresh
client, connect, call the tool, always disconnect in `finally`. -/
def callMCPToolWithConfig (s : ServerState) (_cfg : RuntimeConfig)
    (_toolName : String) (connectRes : Except String Unit)
    (callRes : Except String (List String × Bool)) :
    CallToolResult × List ConnEvent × ServerState :=
  let id := s.nextClientId
  let s1 := { s with nextClientId := s.nextClientId + 1 }
  match connectRes with
  | .error e =>
    (⟨false, none, none, some ("MCP connection failed: " ++ e)⟩,
     [.connect id, .disconnect id], s1)
  | .ok _ =>
    match callRes with
    | .error e =>
      (⟨false, none, none, some ("Failed to call tool: " ++ e)⟩,
       [.connect id, .oper id "callTool", .disconnect id], s1)
    | .ok c =>
      (⟨true, some c.1, some c.2, none⟩,
       [.connect id, .oper id "callTool", .disconnect id], s1)

/-- `connectToMCPServer`: disconnect and evict any pooled client for the
service, connect a fresh client, store it in the pool, and list tools to
confirm — the new connection is left open (no `finally` disconnect). -/
def connectToMCPServer (s : ServerState) (serviceId : String)
    (connectRes : Except String Unit)
    (listRes : Except String (List MCPToolDefinition)) :
    ListResult (List MCPToolDefinition) × List ConnEvent × ServerState :=
  let pre :=
    match s.clientPool.lookup serviceId with
    | some oldId =>
      ([ConnEvent.disconnect oldId],
       { s with clientPool := s.clientPool.filter (fun p => p.1 ≠ serviceId) })
    | none => ([], s)
  let id := pre.2.nextClientId
  let s1 := { pre.2 with nextClientId := pre.2.nextClientId + 1 }
  match connectRes with
  | .error e => (⟨false, none, some e⟩, pre.1 ++ [.connect id], s1)
  | .ok _ =>
    let s2 := { s1 with clientPool := s1.clientPool ++ [(serviceId, id)] }
    match listRes with
    | .error e =>
      (⟨false, none, some ("Failed to list tools: " ++ e)⟩,
       pre.1 ++ [.connect id, .oper id "listTools"], s2)
    | .ok tools =>
      (⟨true, some tools, none⟩,
       pre.1 ++ [.connect id, .oper id "listTools"], s2)

/-- `callMCPTool(serviceId, ...)`: use the pooled client when present —
no connect and no disconnect around the operation — and otherwise return
the "no active connection" error. -/
def callMCPTool (s : ServerState) (serviceId : String)
    (callRes : Except String (List String × Bool)) :
    CallToolResult × List ConnEvent × ServerState :=
  match s.clientPool.lookup serviceId with
  | some id =>
    (match callRes with
     | .error e => ⟨false, none, none, some ("Failed to call tool: " ++ e)⟩
     | .ok c => ⟨true, some c.1, some c.2, none⟩,
     [.oper id "callTool"], s)
  | none =>
    (⟨false, none, none,
      some ("No active connection for service " ++ serviceId ++
        ". Please test connection first or use the stateless callMCPToolWithConfig function.")⟩,
     [], s)

/-- `listMCPTools(serviceId, config?)` (the server action): with a config,
validate it, then connect a fresh client, list tools, always disconnect in
`finally`; without one, fall back to the pooled client. -/
def listMCPToolsAction (s : ServerState) (serviceId : String)
    (cfg : Option RuntimeConfig) (validUrl : String → Bool)
    (connectRes : Except String Unit)
    (listRes : Except String (List MCPToolDefinition)) :
    ListResult (List MCPToolDefinition) × List ConnEvent × ServerState :=
  match cfg with
  | some c =>
    (match c.url with
     | none => (⟨false, none, some "URL is required for HTTP transport"⟩, [], s)
     | some u =>
       if u = "" || jsTrim u = "" then
         (⟨false, none, some "URL is required for HTTP transport"⟩, [], s)
       else if !(validUrl u) then
         (⟨false, none, some ("Invalid URL format: " ++ u)⟩, [], s)
       else
         let id := s.nextClientId
         let s1 := { s with nextClientId := s.nextClientId + 1 }
         match connectRes with
         | .error e =>
           (⟨false, none, some ("MCP connection failed: " ++ e)⟩,
            [.connect id, .disconnect id], s1)
         | .ok _ =>
           match listRes with
           | .error e =>
             (⟨false, none, some ("Failed to list tools: " ++ e)⟩,
              [.connect id, .oper id "listTools", .disconnect id], s1)
           | .ok tools =>
             (⟨true, some tools, none⟩,
              [.connect id, .oper id "listTools", .disconnect id], s1))
  | none =>
    match s.clientPool.lookup serviceId with
    | some id =>
      (match listRes with
       | .error e => ⟨false, none, some ("Failed to list tools: " ++ e)⟩
       | .ok tools => ⟨true, some tools, none⟩,
       [.oper id "listTools"], s)
    | none =>
      (⟨false, none,
        some ("No configuration provided and no active connection for service " ++ serviceId)⟩,
       [], s)

/-- `getMCPPromptWithConfig`: stateless — connect, get the prompt, always
disconnect in `finally`. -/
def getMCPPromptWithConfig (s : ServerState) (_cfg : RuntimeConfig)
    (_promptName : String) (connectRes : Except String Unit)
    (promptRes : Except String (Option String × List String)) :
    ListResult (Option String × List String) × List ConnEvent × ServerState :=
  let id := s.nextClientId
  let s1 := { s with nextClientId := s.nextClientId + 1 }
  match connectRes with
  | .error e =>
    (⟨false, none, some ("MCP connection failed: " ++ e)⟩,
     [.connect id, .disconnect id], s1)
  | .ok _ =>
    match promptRes with
    | .error e =>
      (⟨false, none, some ("Failed to get prompt: " ++ e)⟩,
       [.connect id, .oper id "getPrompt", .disconnect id], s1)
    | .ok p =>
      (⟨true, some p, none⟩,
       [.connect id, .oper id "getPrompt", .disconnect id], s1)

/-- `readMCPResourceWithConfig`: stateless — connect, read the resource,
always disconnect in `finally`. -/
def readMCPResourceWithConfig (s : ServerState) (_cfg : RuntimeConfig)
    (_uri : String) (connectRes : Except String Unit)
    (readRes : Except String (List String)) :
    ListResult (List String) × List ConnEvent × ServerState :=
  let id := s.nextClientId
  let s1 := { s with nextClientId := s.nextClientId + 1 }
  match connectRes with
  | .error e =>
    (⟨false, none, some ("MCP connection failed: " ++ e)⟩,
     [.connect id, .disconnect id], s1)
  | .ok _ =>
    match readRes with
    | .error e =>
      (⟨false, none, some ("Failed to read resource: " ++ e)⟩,
       [.connect id, .oper id "readResource", .disconnect id], s1)
    | .ok c =>
      (⟨true, some c, none⟩,
       [.connect id, .oper id "readResource", .disconnect id], s1)

/-- `listMCPPrompts(serviceId, config?)`: with a config, only the
empty-URL check (no URL-syntax validation), then connect, list prompts,
always disconnect in `finally`; without one, the pooled fallback. -/
def listMCPPromptsAction (s : ServerState) (serviceId : String)
    (cfg : Option RuntimeConfig) (connectRes : Except String Unit)
    (listRes : Except String (List String)) :
    ListResult (List String) × List ConnEvent × ServerState :=
  match cfg with
  | some c =>
    (match c.url with
     | none => (⟨false, none, some "URL is required for HTTP transport"⟩, [], s)
     | some u =>
       if u = "" || jsTrim u = "" then
         (⟨false, none, some "URL is required for HTTP transport"⟩, [], s)
       else
         let id := s.nextClientId
         let s1 := { s with nextClientId := s.nextClientId + 1 }
         match connectRes with
         | .error e =>
           (⟨false, none, some ("MCP connection failed: " ++ e)⟩,
            [.connect id, .disconnect id], s1)
         | .ok _ =>
           match listRes with
           | .error e =>
             (⟨false, none, some ("Failed to list prompts: " ++ e)⟩,
              [.connect id, .oper id "listPrompts", .disconnect id], s1)
           | .ok ps =>
             (⟨true, some ps, none⟩,
              [.connect id, .oper id "listPrompts", .disconnect id], s1))
  | none =>
    match s.clientPool.lookup serviceId with
    | some id =>
      (match listRes with
       | .error e => ⟨false, none, some ("Failed to list prompts: " ++ e)⟩
       | .ok ps => ⟨true, some ps, none⟩,
       [.oper id "listPrompts"], s)
    | none =>
      (⟨false, none,
        some ("No configuration provided and no active connection for service " ++ serviceId)⟩,
       [], s)

/-- `listMCPResources(serviceId, config?)`: same shape as
`listMCPPrompts`. -/
def listMCPResourcesAction (s : ServerState) (serviceId : String)
    (cfg : Option RuntimeConfig) (connectRes : Except String Unit)
    (listRes : Except String (List String)) :
    ListResult (List String) × List ConnEvent × ServerState :=
  match cfg with
  | some c =>
    (match c.url with
     | none => (⟨false, none, some "URL is required for HTTP transport"⟩, [], s)
     | some u =>
       if u = "" || jsTrim u = "" then
         (⟨false, none, some "URL is required for HTTP transport"⟩, [], s)
       else
         let id := s.nextClientId
         let s1 := { s with nextClientId := s.nextClientId + 1 }
         match connectRes with
         | .error e =>
           (⟨false, none, some ("MCP connection failed: " ++ e)⟩,
            [.connect id, .disconnect id], s1)
         | .ok _ =>
           match listRes with
           | .error e =>
             (⟨false, none, some ("Failed to list resources: " ++ e)⟩,
              [.connect id, .oper id "listResources", .disconnect id], s1)
           | .ok rs =>
             (⟨true, some rs, none⟩,
              [.connect id, .oper id "listResources", .disconnect id], s1))
  | none =>
    match s.clientPool.lookup serviceId with
    | some id =>
      (match listRes with
       | .error e => ⟨false, none, some ("Failed to list resources: " ++ e)⟩
       | .ok rs => ⟨true, some rs, none⟩,
       [.oper id "listResources"], s)
    | none =>
      (⟨false, none,
        some ("No configuration provided and no active connection for service " ++ serviceId)⟩,
       [], s)

/-- `listMCPTools` from `src/app/utils/mcp-client-hooks.ts`: load the
service config from storage and call the action with it. -/
def listMCPToolsClient (st : LocalStorage) (s : ServerState)
    (serviceId : String) (validUrl : String → Bool)
    (connectRes : Except String Unit)
    (listRes : Except String (List MCPToolDefinition)) :
    ListResult (List MCPToolDefinition) × List ConnEvent × ServerState :=
  match loadServiceConfig st serviceId with
  | none =>
    (⟨false, none,
      some ("No configuration found for service " ++ serviceId ++
        ". Please configure the service first.")⟩, [], s)
  | some v =>
    listMCPToolsAction s serviceId (some v.toRuntimeConfig) validUrl
      connectRes listRes

/-! ## Permission gate (`src/app/utils/tool-permissions.ts`)

`useToolPermissions` holds a `PermissionState`; `requestPermission`
returns a promise that either resolves immediately (session cache or
auto-list hit) or stays pending until the user clicks approve/deny on the
queued request.  A JS `Map` is modelled as an association list with
in-place `set`.
-/

/-- The part of a `ToolCall` the permission gate reads: its id and tool
name. -/
structure GateToolCall where
  id : String
  name : String
deriving DecidableEq, Repr

/-- `PermissionState` from `src/app/utils/tool-permissions.ts`.  Pending
requests are represented by their tool calls. -/
structure PermissionState where
  pendingRequests : List GateToolCall
  approvedTools : List String
  deniedTools : List String
  sessionPermissions : List (String × Bool)
deriving DecidableEq, Repr

/-- JS `Map.prototype.set`: overwrite in place, else append. -/
def mapSet (m : List (String × Bool)) (k : String) (b : Bool) :
    List (String × Bool) :=
  if m.any (fun p => p.1 = k) then
    m.map (fun p => if p.1 = k then (k, b) else p)
  else m ++ [(k, b)]

/-- How one `requestPermission` call comes out: resolved now, or queued as
a pending prompt. -/
inductive PermissionStep where
  | resolved (decision : Bool)
  | pending
deriving DecidableEq, Repr

/-- `requestPermission`: session cache first, then the auto-approve and
auto-deny sets (which also write the session cache), otherwise queue a
pending request for the user. -/
def requestPermission (s : PermissionState) (call : GateToolCall) :
    PermissionStep × PermissionState :=
  match s.sessionPermissions.lookup call.name with
  | some b => (.resolved b, s)
  | none =>
    if s.approvedTools.contains call.name then
      (.resolved true,
       { s with sessionPermissions := mapSet s.sessionPermissions call.name true })
    else if s.deniedTools.contains call.name then
      (.resolved false,
       { s with sessionPermissions := mapSet s.sessionPermissions call.name false })
    else
      (.pending, { s with pendingRequests := s.pendingRequests ++ [call] })

/-- The `onApprove` handler of a queued request: drop the request by id
and cache `true` for the tool name (the promise resolves `true`). -/
def approvePending (s : PermissionState) (call : GateToolCall) :
    PermissionState :=
  { s with
    pendingRequests := s.pendingRequests.filter (fun r => r.id ≠ call.id)
    sessionPermissions := mapSet s.sessionPermissions call.name true }

/-- The `onDeny` handler: drop the request by id and cache `false`. -/
def denyPending (s : PermissionState) (call : GateToolCall) :
    PermissionState :=
  { s with
    pendingRequests := s.pendingRequests.filter (fun r => r.id ≠ call.id)
    sessionPermissions := mapSet s.sessionPermissions call.name false }

/-- `clearSessionPermissions`: reset the session cache and the pending
queue. -/
def clearSessionPermissions (s : PermissionState) : PermissionState :=
  { s with sessionPermissions := [], pendingRequests := [] }

/-! ## Invocation coordinator (`src/app/utils/use-chat.ts`, `onToolCall`)

`onToolCall` receives a model-initiated tool call, resolves the tool and
its service config, executes it through the stateless
`callMCPToolWithConfig` action (abstracted as the `exec` oracle), and
best-effort summarizes the result (`generateText` abstracted as the
`genText` oracle).  Besides its returned value, the embedding records the
trace of externally visible steps; `permissionPrompt` is the event a
Permission Gate consultation would emit, so its absence is expressible.
-/

/-- The `toolCall` argument the AI SDK hands to `onToolCall`. -/
structure ToolCallRequest where
  toolCallId : String
  toolName : String
  args : List (String × String)
deriving DecidableEq, Repr

/-- The externally visible steps of one `onToolCall` run. -/
inductive ChatEffect where
  | permissionPrompt (toolName : String)
  | executeTool (serviceId : String) (toolName : String)
  | summarizeCall (toolName : String)
deriving DecidableEq, Repr

/-- What `onToolCall` returns to the model conversation: `{error}`, or
`{result}` possibly extended with `{summary, rawResult}`. -/
inductive ToolCallResponse where
  | errorResult (message : String)
  | result (content : Option (List String)) (summary : Option String)
      (raw : Option (List String))
deriving DecidableEq, Repr

/-- `summarizeToolResult` from `src/app/actions/summarize.ts`: the
`generateText` call is the oracle; a throw is caught and returned as
`{success: false, error}`, a success returns the trimmed text. -/
structure SummarizeResult where
  success : Bool
  summary : Option String
  error : Option String
deriving DecidableEq, Repr

def summarizeToolResult (genText : Except String String) : SummarizeResult :=
  match genText with
  | .ok t => ⟨true, some (jsTrim t), none⟩
  | .error e => ⟨false, none, some e⟩

/-- JS truthiness of `summaryResult.summary` (an empty string is falsy). -/
def truthyStr : Option String → Bool
  | none => false
  | some s => !(s == "")

/-- `onToolCall` from `src/app/utils/use-chat.ts`: find the tool in
`aiTools`, find the service config, execute via `callMCPToolWithConfig`,
then best-effort summarize; on a missing tool or config return an error
result; on execution failure return `{error}`. -/
def onToolCall (aiTools : List AISDKTool)
    (serviceConfigs : List (String × RuntimeConfig))
    (toolCall : ToolCallRequest)
    (exec : RuntimeConfig → String → List (String × String) → CallToolResult)
    (genText : Except String String) :
    ToolCallResponse × List ChatEffect :=
  match aiTools.find? (fun t => t.name == toolCall.toolName) with
  | none => (.errorResult "Tool not found", [])
  | some tool =>
    match serviceConfigs.lookup tool.serviceId with
    | none => (.errorResult "Service configuration not found", [])
    | some serviceConfig =>
      let result := exec serviceConfig toolCall.toolName toolCall.args
      if result.success then
        let summaryResult := summarizeToolResult genText
        if summaryResult.success && truthyStr summaryResult.summary then
          (.result result.content summaryResult.summary result.content,
           [.executeTool tool.serviceId toolCall.toolName,
            .summarizeCall toolCall.toolName])
        else
          (.result result.content none none,
           [.executeTool tool.serviceId toolCall.toolName,
            .summarizeCall toolCall.toolName])
      else
        (.errorResult (result.error.getD "Unknown error"),
         [.executeTool tool.serviceId toolCall.toolName])

/-- Is a chat effect a Permission Gate consultation? -/
def isPermissionEffect : ChatEffect → Bool
  | .permissionPrompt _ => true
  | _ => false

/-- A registered `delete_repo` tool on service `github`. -/
def exampleTool : AISDKTool :=
  convertToAISDKTool ⟨"delete_repo", some "Delete a repository", "github", none⟩

/-- A service config for `github`. -/
def exampleRuntimeConfig : RuntimeConfig :=
  ⟨some "https://github-mcp.example.com/mcp", none⟩

/-- An execution oracle on which the remote call succeeds. -/
def exampleExec :
    RuntimeConfig → String → List (String × String) → CallToolResult :=
  fun _ _ _ => ⟨true, some ["repository deleted"], some false, none⟩

/-! ## Model-facing manifest of the chat route (`src/app/api/chat/route.ts`)

The route rebuilds AI SDK tools from the posted tool list with
`Object.fromEntries`, converting each JSON schema back to a Zod schema
with `jsonSchemaToZod`.
-/

/-- A tool as posted to the route: `{name, description, parameters,
serviceId}`. -/
structure RouteTool where
  name : String
  description : String
  parameters : JsonObjectSchema
  serviceId : String
deriving DecidableEq, Repr

/-- The per-name payload the route builds (no `execute` function). -/
structure RouteToolPayload where
  description : String
  parameters : ZodObjectSchema
deriving DecidableEq, Repr

/-- `jsonSchemaToZod` from `src/app/api/chat/route.ts`: every recognized
property type maps to its Zod type and is `.optional()`, unknown types map
to `z.any().optional()`, and the required rebuild unwraps `optional` for
names in `required`; a non-`object` top level yields `z.object({})`. -/
def jsonSchemaToZod (js : JsonObjectSchema) : ZodObjectSchema :=
  if js.type = "object" then
    js.properties.map fun p =>
      let base : ZodBase :=
        match p.2.type with
        | "string" => .zstring
        | "number" => .znumber
        | "boolean" => .zboolean
        | "array" => .zarrayAny
        | _ => .zany
      (p.1, ⟨base, p.2.description, !(js.required.contains p.1)⟩)
  else []

/-- JS object-key assignment: overwrite in place, else append. -/
def jsSetKey {β : Type} (m : List (String × β)) (k : String) (v : β) :
    List (String × β) :=
  if m.any (fun p => p.1 = k) then
    m.map (fun p => if p.1 = k then (k, v) else p)
  else m ++ [(k, v)]

/-- JS `Object.fromEntries`: left-to-right object-key assignment. -/
def jsObjectFromEntries {β : Type} (l : List (String × β)) :
    List (String × β) :=
  l.foldl (fun m p => jsSetKey m p.1 p.2) []

/-- The route's payload for one posted tool. -/
def routeToolPayload (t : RouteTool) : RouteToolPayload :=
  ⟨t.description, jsonSchemaToZod t.parameters⟩

/-- The `aiTools` object the route passes to `streamText`:
`Object.fromEntries(tools.map(tool => [tool.name, {...}]))`. -/
def routeAiTools (tools : List RouteTool) : List (String × RouteToolPayload) :=
  jsObjectFromEntries (tools.map fun t => (t.name, routeToolPayload t))

/-- "The last enumerated entry for a name wins": the resolution rule the
observed flow actually implements, stated independently for comparison. -/
def lastEntryFor {β : Type} (k : String) : List (String × β) → Option β
  | [] => none
  | p :: rest =>
    match lastEntryFor k rest with
    | some v => some v
    | none => if p.1 = k then some p.2 else none

/-- The scoped-acquisition trace shape of one stateless client operation
with fresh client id `id`: either no connection at all (validation
fast-fail), or connect/disconnect around at most one operation, with the
disconnect attempt last on every path. -/
abbrev scopedTrace (id : Nat) (opName : String) (tr : List ConnEvent) : Prop :=
  tr = [] ∨ tr = [.connect id, .disconnect id] ∨
  tr = [.connect id, .oper id opName, .disconnect id]

/-- Two enabled services exposing a capability with the same name. -/
def dupToolA : RouteTool :=
  ⟨"create_issue", "Create an issue on GitHub", ⟨"object", [], []⟩, "github"⟩

def dupToolB : RouteTool :=
  ⟨"create_issue", "Create an issue on GitLab", ⟨"object", [], []⟩, "gitlab"⟩

/-- A storage state with one configured service and a saved tool-selection
mapping. -/
def exampleStorage : LocalStorage :=
  [("mcp-client-github", .config "https://github-mcp.example.com/mcp" none),
   ("mcp-client-tool-selection", .selection [("github:delete_repo", false)])]

/-! ## Theorems about the schema translators -/

theorem lookup_map_zodFieldEntry (req : List String)
    (l : List (String × PropertySchema)) (k : String) :
    (l.map (zodFieldEntry req)).lookup k =
      (l.lookup k).map
        (fun b => ⟨zodBaseFor b.type, b.description, !(req.contains k)⟩) := by
  induction l with
  | nil => rfl
  | cons p rest ih =>
    by_cases h : k = p.1
    · subst h
      simp [List.lookup, zodFieldEntry]
    · have hb : (k == p.1) = false := beq_eq_false_iff_ne.mpr h
      simp [List.lookup, zodFieldEntry, hb, ih]

theorem lookup_map_jsonPropEntry
    (l : List (String × PropertySchema)) (k : String) :
    (l.map jsonPropEntry).lookup k =
      (l.lookup k).map (fun b => jsonPropFor b.type b.description) := by
  induction l with
  | nil => rfl
  | cons p rest ih =>
    by_cases h : k = p.1
    · subst h
      simp [List.lookup, jsonPropEntry]
    · have hb : (k == p.1) = false := beq_eq_false_iff_ne.mpr h
      simp [List.lookup, jsonPropEntry, hb, ih]

/-- C3 counterexample: on the descriptor whose property `p` has the
unrecognized type `integer`, the validation schema is the unconstrained
`z.unknown()` (it accepts the number 3), but the model-facing schema
declares `p` with `type: "string"`, which rejects the number 3 — it is not
an unconstrained "any" acceptance, contradicting the claim that both
translation outputs map unrecognized types to "any". -/
theorem convertToJsonSchema_unrecognized_not_any :
    convertToZodSchema integerPropSchema = [("p", ⟨.zunknown, none, true⟩)] ∧
    zodBaseAccepts .zunknown (.jnum 3) = true ∧
    convertToJsonSchema integerPropSchema =
      ⟨"object", [("p", ⟨"string", none, none⟩)], []⟩ ∧
    jsonTypeAccepts "string" (.jnum 3) = false := by
  refine ⟨rfl, rfl, rfl, rfl⟩

/-- C3 (amended): both translators degrade a missing or non-`object`
top-level schema to the empty-object schema; the model-facing `required`
list is the descriptor's `required` list; each declared property appears in
both outputs with its description, is optional in the validation schema iff
its name is not in `required`; a recognized type (`string`, `number`,
`boolean`, `array`) maps directly in both outputs, with identical
acceptance; an unrecognized or missing type maps to the unconstrained
`z.unknown()` in the validation schema but defaults to `type: "string"` in
the model-facing schema. -/
theorem convert_schema_translators_characterization :
    (convertToZodSchema none = [] ∧
     convertToJsonSchema none = ⟨"object", [], []⟩) ∧
    (∀ s : InputSchema, s.type ≠ "object" →
      convertToZodSchema (some s) = [] ∧
      convertToJsonSchema (some s) = ⟨"object", [], []⟩) ∧
    (∀ s : InputSchema, s.type = "object" →
      (convertToJsonSchema (some s)).required = s.required.getD [] ∧
      ∀ key prop, (s.properties.getD []).lookup key = some prop →
        (convertToZodSchema (some s)).lookup key =
          some ⟨zodBaseFor prop.type, prop.description,
                !((s.required.getD []).contains key)⟩ ∧
        (convertToJsonSchema (some s)).properties.lookup key =
          some (jsonPropFor prop.type prop.description)) ∧
    (∀ (t : String) (d : Option String), isRecognizedType (some t) = true →
      (jsonPropFor (some t) d).type = t ∧
      ∀ v, zodBaseAccepts (zodBaseFor (some t)) v = jsonTypeAccepts t v) ∧
    (∀ (ty : Option String) (d : Option String), isRecognizedType ty = false →
      (∀ v, zodBaseAccepts (zodBaseFor ty) v = true) ∧
      (jsonPropFor ty d).type = "string") := by
  refine ⟨⟨rfl, rfl⟩, ?_, ?_, ?_, ?_⟩
  · intro s hs
    constructor
    · simp [convertToZodSchema, hs]
    · simp [convertToJsonSchema, hs]
  · intro s hs
    constructor
    · simp [convertToJsonSchema, hs]
    · intro key prop hlook
      constructor
      · simp [convertToZodSchema, hs, lookup_map_zodFieldEntry, hlook]
      · simp [convertToJsonSchema, hs, lookup_map_jsonPropEntry, hlook]
  · intro t d ht
    have : t = "string" ∨ t = "number" ∨ t = "boolean" ∨ t = "array" := by
      simpa [isRecognizedType] using ht
    rcases this with h | h | h | h <;> subst h <;>
      exact ⟨rfl, fun v => by cases v <;> rfl⟩
  · intro ty d hty
    cases ty with
    | none => exact ⟨fun v => by cases v <;> rfl, rfl⟩
    | some t =>
      have h1 : t ≠ "string" := by
        intro h; subst h; simp [isRecognizedType] at hty
      have h2 : t ≠ "number" := by
        intro h; subst h; simp [isRecognizedType] at hty
      have h3 : t ≠ "boolean" := by
        intro h; subst h; simp [isRecognizedType] at hty
      have h4 : t ≠ "array" := by
        intro h; subst h; simp [isRecognizedType] at hty
      have hz : zodBaseFor (some t) = .zunknown := by
        unfold zodBaseFor
        split
        · next heq => exact absurd (by injection heq) h1
        · next heq => exact absurd (by injection heq) h2
        · next heq => exact absurd (by injection heq) h3
        · next heq => exact absurd (by injection heq) h4
        · rfl
      have hj : jsonPropFor (some t) d = ⟨"string", none, d⟩ := by
        unfold jsonPropFor
        split
        · next heq => exact absurd (by injection heq) h1
        · next heq => exact absurd (by injection heq) h2
        · next heq => exact absurd (by injection heq) h3
        · next heq => exact absurd (by injection heq) h4
        · rfl
      refine ⟨fun v => ?_, by rw [hj]⟩
      rw [hz]
      cases v <;> rfl

/-- Witness for the amended C3 theorem at a concrete descriptor. -/
theorem convert_schema_translators_characterization_witness :
    (convertToZodSchema integerPropSchema).lookup "p" =
      some ⟨zodBaseFor (some "integer"), none, true⟩ ∧
    (convertToJsonSchema integerPropSchema).properties.lookup "p" =
      some (jsonPropFor (some "integer") none) := by
  have h := (convert_schema_translators_characterization.2.2.1
    ⟨"object", some [("p", ⟨some "integer", none⟩)], some []⟩ rfl).2
    "p" ⟨some "integer", none⟩ (by rfl)
  exact ⟨by simpa using h.1, by simpa using h.2⟩

/-! ## Theorems about the risk classifier copies were stated above;
theorems about registry filtering and the tool-count ceiling follow. -/

/-- C8: a tool is kept by the `refreshTools` selection filter iff it was
enumerated and its `"{serviceId}:{toolName}"` key is not mapped to `false`:
an absent key defaults to enabled, a `false` key excludes the tool from the
published manifest even though the provider still returned it, and every
kept tool's conversion appears in the manifest. -/
theorem filterBySelection_mem_iff :
    ∀ (tools : List MCPToolDefinition) (sel : ToolSelectionState)
      (t : MCPToolDefinition),
      (t ∈ filterBySelection tools sel ↔
        t ∈ tools ∧ sel.lookup (toolSelectionKey t) ≠ some false) ∧
      (t ∈ filterBySelection tools sel →
        convertToAISDKTool t ∈ refreshToolsAiTools tools sel) := by
  intro tools sel t
  constructor
  · simp only [filterBySelection, List.mem_filter, isSelectedIn]
    constructor
    · rintro ⟨ht, hsel⟩
      refine ⟨ht, ?_⟩
      cases h : sel.lookup (toolSelectionKey t) with
      | none => simp
      | some b =>
        rw [h] at hsel
        simp only [Option.getD_some] at hsel
        subst hsel
        simp
    · rintro ⟨ht, hsel⟩
      refine ⟨ht, ?_⟩
      cases h : sel.lookup (toolSelectionKey t) with
      | none => rfl
      | some b =>
        cases b with
        | false => exact absurd h hsel
        | true => simp
  · intro ht
    exact List.mem_map_of_mem convertToAISDKTool ht

/-- Witness for C8 at a concrete enumeration and selection state:
`github:delete_repo` is mapped to `false` and is excluded, while the
untouched `github:list_repos` stays in the manifest. -/
theorem filterBySelection_mem_iff_witness :
    (⟨"delete_repo", none, "github", none⟩ : MCPToolDefinition) ∉
      filterBySelection
        [⟨"delete_repo", none, "github", none⟩,
         ⟨"list_repos", none, "github", none⟩]
        [("github:delete_repo", false)] ∧
    convertToAISDKTool ⟨"list_repos", none, "github", none⟩ ∈
      refreshToolsAiTools
        [⟨"delete_repo", none, "github", none⟩,
         ⟨"list_repos", none, "github", none⟩]
        [("github:delete_repo", false)] := by
  constructor
  · intro hmem
    have h := ((filterBySelection_mem_iff
      [⟨"delete_repo", none, "github", none⟩,
       ⟨"list_repos", none, "github", none⟩]
      [("github:delete_repo", false)]
      ⟨"delete_repo", none, "github", none⟩).1.mp hmem).2
    exact h (by rfl)
  · exact (filterBySelection_mem_iff
      [⟨"delete_repo", none, "github", none⟩,
       ⟨"list_repos", none, "github", none⟩]
      [("github:delete_repo", false)]
      ⟨"list_repos", none, "github", none⟩).2 (by decide)

/-- C6: the custom submit handler refuses any submission whose enabled tool
count exceeds `MAX_TOOLS_PER_REQUEST = 30`, surfacing the "too many tools"
warning instead of calling the model; at or below the maximum it submits;
and whenever it submits, it submits the tool list unaltered (never a
truncation). -/
theorem handleSubmit_tool_ceiling :
    ∀ (tools : List Nat),
      (tools.length > MAX_TOOLS_PER_REQUEST →
        handleSubmit tools = .refused (toolLimitWarning tools.length)) ∧
      (tools.length ≤ MAX_TOOLS_PER_REQUEST →
        handleSubmit tools = .submitted tools) ∧
      (∀ t, handleSubmit tools = .submitted t → t = tools) := by
  intro tools
  refine ⟨?_, ?_, ?_⟩
  · intro h
    simp [handleSubmit, h]
  · intro h
    simp [handleSubmit, Nat.not_lt.mpr h]
  · intro t h
    unfold handleSubmit at h
    split at h
    · cases h
    · cases h
      rfl

/-- Witness for C6: 31 tools are refused with the warning text, 30 are
submitted unchanged. -/
theorem handleSubmit_tool_ceiling_witness :
    handleSubmit (List.replicate 31 0) =
      .refused (toolLimitWarning 31) ∧
    handleSubmit (List.replicate 30 0) =
      .submitted (List.replicate 30 0) := by
  constructor
  · have h := (handleSubmit_tool_ceiling (List.replicate 31 0)).1 (by decide)
    simpa using h
  · exact (handleSubmit_tool_ceiling (List.replicate 30 0)).2.1 (by decide)

/-! ## Theorems about the permission gate -/

theorem lookup_map_overwrite_self (m : List (String × Bool)) (k : String)
    (b : Bool) (h : m.any (fun p => p.1 = k) = true) :
    (m.map (fun p => if p.1 = k then (k, b) else p)).lookup k = some b := by
  induction m with
  | nil => simp at h
  | cons p rest ih =>
    obtain ⟨a, v⟩ := p
    by_cases hp : a = k
    · subst hp
      have h1 : List.map (fun p : String × Bool => if p.1 = a then (a, b) else p)
          ((a, v) :: rest) =
          (a, b) :: List.map (fun p : String × Bool => if p.1 = a then (a, b) else p) rest := by
        simp
      rw [h1]
      simp [List.lookup]
    · have hrest : rest.any (fun p => p.1 = k) = true := by
        simpa [hp] using h
      have hb : (k == a) = false := beq_eq_false_iff_ne.mpr (Ne.symm hp)
      have h1 : List.map (fun p : String × Bool => if p.1 = k then (k, b) else p)
          ((a, v) :: rest) =
          (a, v) :: List.map (fun p : String × Bool => if p.1 = k then (k, b) else p) rest := by
        simp [hp]
      rw [h1]
      simp [List.lookup, hb, ih hrest]

theorem lookup_append_new_self (m : List (String × Bool)) (k : String)
    (b : Bool) (h : m.any (fun p => p.1 = k) = false) :
    (m ++ [(k, b)]).lookup k = some b := by
  induction m with
  | nil => simp [List.lookup]
  | cons p rest ih =>
    obtain ⟨a, v⟩ := p
    have hp : ¬(a = k) := by
      intro hc
      simp [hc] at h
    have hrest : rest.any (fun p => p.1 = k) = false := by
      simpa [hp] using h
    have hb : (k == a) = false := beq_eq_false_iff_ne.mpr (Ne.symm hp)
    simp [List.lookup, hb, ih hrest]

theorem lookup_mapSet_self (m : List (String × Bool)) (k : String) (b : Bool) :
    (mapSet m k b).lookup k = some b := by
  unfold mapSet
  split
  · next h => exact lookup_map_overwrite_self m k b h
  · next h =>
    exact lookup_append_new_self m k b (Bool.eq_false_iff.mpr h)

/-- C9: permission decisions are cached per tool name for the session: a
session-cache hit makes `requestPermission` resolve immediately with the
cached decision and an unchanged state (in particular, no new pending
prompt); a user approval caches `true` for that tool name; and only
`clearSessionPermissions` empties the cache. -/
theorem requestPermission_session_cached :
    ∀ (s : PermissionState) (c : GateToolCall),
      (∀ b, s.sessionPermissions.lookup c.name = some b →
        requestPermission s c = (.resolved b, s)) ∧
      (∀ c0 : GateToolCall, c0.name = c.name →
        (approvePending s c0).sessionPermissions.lookup c.name = some true) ∧
      (clearSessionPermissions s).sessionPermissions = [] := by
  intro s c
  refine ⟨?_, ?_, rfl⟩
  · intro b hb
    simp [requestPermission, hb]
  · intro c0 hname
    simp only [approvePending]
    rw [← hname]
    exact lookup_mapSet_self s.sessionPermissions c0.name true

/-- Witness for C9: after the user approves `delete_repo` once, a second
request for `delete_repo` in the same session resolves `true` with the
state unchanged — no new pending prompt. -/
theorem requestPermission_session_cached_witness :
    requestPermission
      (approvePending ⟨[⟨"call-1", "delete_repo"⟩], [], [], []⟩
        ⟨"call-1", "delete_repo"⟩)
      ⟨"call-2", "delete_repo"⟩ =
      (.resolved true,
       approvePending ⟨[⟨"call-1", "delete_repo"⟩], [], [], []⟩
         ⟨"call-1", "delete_repo"⟩) := by
  exact (requestPermission_session_cached
    (approvePending ⟨[⟨"call-1", "delete_repo"⟩], [], [], []⟩
      ⟨"call-1", "delete_repo"⟩)
    ⟨"call-2", "delete_repo"⟩).1 true (by decide)

/-! ## Theorems about the remote capability client -/

/-- C2 counterexample: `connectToMCPServer` (a public client operation)
performs connect and one `listTools` with no disconnect, parking the open
connection (id 0) in the pool, and a subsequent `callMCPTool` performs a
second logical operation on that very same connection with no connect and
no disconnect — a connection object reused across two logical
operations. -/
theorem connection_pool_reuse :
    (connectToMCPServer ⟨0, []⟩ "github" (.ok ()) (.ok [])).2.1 =
      [.connect 0, .oper 0 "listTools"] ∧
    ((connectToMCPServer ⟨0, []⟩ "github" (.ok ()) (.ok [])).2.2).clientPool =
      [("github", 0)] ∧
    (callMCPTool ((connectToMCPServer ⟨0, []⟩ "github" (.ok ()) (.ok [])).2.2)
        "github" (.ok (["done"], false))).2.1 = [.oper 0 "callTool"] := by
  refine ⟨rfl, rfl, rfl⟩

/-- C2 (amended): every stateless client operation — `testMCPConnection`,
`callMCPToolWithConfig`, the list/get/read operations given a config —
either fails fast on validation with no connection at all, or performs
connect, at most one logical operation, and a final disconnect attempt, on
every outcome of the connect and operation oracles; none of them touches
the client pool.  (The pool-based `connectToMCPServer`/`callMCPTool` path
violates the discipline, per the counterexample.) -/
theorem stateless_client_ops_scoped :
    ∀ (s : ServerState) (cfg : RuntimeConfig) (nm sid : String)
      (vu : String → Bool) (cr : Except String Unit)
      (callR : Except String (List String × Bool))
      (listR : Except String (List MCPToolDefinition))
      (promptR : Except String (Option String × List String))
      (strR : Except String (List String)),
      (scopedTrace s.nextClientId "callTool"
          (callMCPToolWithConfig s cfg nm cr callR).2.1 ∧
        ((callMCPToolWithConfig s cfg nm cr callR).2.2).clientPool =
          s.clientPool) ∧
      (scopedTrace s.nextClientId "listTools"
          (testMCPConnection s cfg vu cr listR).2.1 ∧
        ((testMCPConnection s cfg vu cr listR).2.2).clientPool =
          s.clientPool) ∧
      (scopedTrace s.nextClientId "listTools"
          (listMCPToolsAction s sid (some cfg) vu cr listR).2.1 ∧
        ((listMCPToolsAction s sid (some cfg) vu cr listR).2.2).clientPool =
          s.clientPool) ∧
      (scopedTrace s.nextClientId "getPrompt"
          (getMCPPromptWithConfig s cfg nm cr promptR).2.1 ∧
        ((getMCPPromptWithConfig s cfg nm cr promptR).2.2).clientPool =
          s.clientPool) ∧
      (scopedTrace s.nextClientId "readResource"
          (readMCPResourceWithConfig s cfg nm cr strR).2.1 ∧
        ((readMCPResourceWithConfig s cfg nm cr strR).2.2).clientPool =
          s.clientPool) ∧
      (scopedTrace s.nextClientId "listPrompts"
          (listMCPPromptsAction s sid (some cfg) cr strR).2.1 ∧
        ((listMCPPromptsAction s sid (some cfg) cr strR).2.2).clientPool =
          s.clientPool) ∧
      (scopedTrace s.nextClientId "listResources"
          (listMCPResourcesAction s sid (some cfg) cr strR).2.1 ∧
        ((listMCPResourcesAction s sid (some cfg) cr strR).2.2).clientPool =
          s.clientPool) := by
  intro s cfg nm sid vu cr callR listR promptR strR
  obtain ⟨url, bt⟩ := cfg
  refine ⟨?_, ?_, ?_, ?_, ?_, ?_, ?_⟩
  · cases cr with
    | error e => exact ⟨Or.inr (Or.inl rfl), rfl⟩
    | ok u =>
      cases callR with
      | error e => exact ⟨Or.inr (Or.inr rfl), rfl⟩
      | ok c => exact ⟨Or.inr (Or.inr rfl), rfl⟩
  · cases url with
    | none => exact ⟨Or.inl rfl, rfl⟩
    | some u =>
      simp only [testMCPConnection]
      split_ifs with h1 h2
      · exact ⟨Or.inl rfl, rfl⟩
      · exact ⟨Or.inl rfl, rfl⟩
      · cases cr with
        | error e => exact ⟨Or.inr (Or.inl rfl), rfl⟩
        | ok u0 =>
          cases listR with
          | error e => exact ⟨Or.inr (Or.inr rfl), rfl⟩
          | ok t => exact ⟨Or.inr (Or.inr rfl), rfl⟩
  · cases url with
    | none => exact ⟨Or.inl rfl, rfl⟩
    | some u =>
      simp only [listMCPToolsAction]
      split_ifs with h1 h2
      · exact ⟨Or.inl rfl, rfl⟩
      · exact ⟨Or.inl rfl, rfl⟩
      · cases cr with
        | error e => exact ⟨Or.inr (Or.inl rfl), rfl⟩
        | ok u0 =>
          cases listR with
          | error e => exact ⟨Or.inr (Or.inr rfl), rfl⟩
          | ok t => exact ⟨Or.inr (Or.inr rfl), rfl⟩
  · cases cr with
    | error e => exact ⟨Or.inr (Or.inl rfl), rfl⟩
    | ok u =>
      cases promptR with
      | error e => exact ⟨Or.inr (Or.inr rfl), rfl⟩
      | ok p => exact ⟨Or.inr (Or.inr rfl), rfl⟩
  · cases cr with
    | error e => exact ⟨Or.inr (Or.inl rfl), rfl⟩
    | ok u =>
      cases strR with
      | error e => exact ⟨Or.inr (Or.inr rfl), rfl⟩
      | ok c => exact ⟨Or.inr (Or.inr rfl), rfl⟩
  · cases url with
    | none => exact ⟨Or.inl rfl, rfl⟩
    | some u =>
      simp only [listMCPPromptsAction]
      split_ifs with h1
      · exact ⟨Or.inl rfl, rfl⟩
      · cases cr with
        | error e => exact ⟨Or.inr (Or.inl rfl), rfl⟩
        | ok u0 =>
          cases strR with
          | error e => exact ⟨Or.inr (Or.inr rfl), rfl⟩
          | ok t => exact ⟨Or.inr (Or.inr rfl), rfl⟩
  · cases url with
    | none => exact ⟨Or.inl rfl, rfl⟩
    | some u =>
      simp only [listMCPResourcesAction]
      split_ifs with h1
      · exact ⟨Or.inl rfl, rfl⟩
      · cases cr with
        | error e => exact ⟨Or.inr (Or.inl rfl), rfl⟩
        | ok u0 =>
          cases strR with
          | error e => exact ⟨Or.inr (Or.inr rfl), rfl⟩
          | ok t => exact ⟨Or.inr (Or.inr rfl), rfl⟩

/-! ## Theorems about the invocation coordinator -/

/-- C1: `onToolCall` never consults the Permission Gate.  On the concrete
first-use call of the high-risk `delete_repo` tool the complete effect
trace is execute-then-summarize — the remote tool is executed with no
permission prompt and no approval decision anywhere before it — and in
general no run of `onToolCall`, on any inputs and oracles, ever emits a
Permission Gate consultation. -/
theorem onToolCall_executes_without_permission :
    onToolCall [exampleTool] [("github", exampleRuntimeConfig)]
        ⟨"call-1", "delete_repo", []⟩ exampleExec
        (.ok "Deleted the repository.") =
      (.result (some ["repository deleted"]) (some "Deleted the repository.")
        (some ["repository deleted"]),
       [.executeTool "github" "delete_repo", .summarizeCall "delete_repo"]) ∧
    ∀ (aiTools : List AISDKTool) (configs : List (String × RuntimeConfig))
      (call : ToolCallRequest)
      (exec : RuntimeConfig → String → List (String × String) → CallToolResult)
      (genText : Except String String),
      (onToolCall aiTools configs call exec genText).2.all
        (fun e => !(isPermissionEffect e)) = true := by
  constructor
  · decide
  · intro aiTools configs call exec genText
    unfold onToolCall
    cases h1 : aiTools.find? (fun t => t.name == call.toolName) with
    | none => rfl
    | some tool =>
      dsimp only
      cases h2 : configs.lookup tool.serviceId with
      | none => rfl
      | some serviceConfig =>
        dsimp only
        by_cases hs : (exec serviceConfig call.toolName call.args).success = true
        · by_cases hsum :
            ((summarizeToolResult genText).success &&
              truthyStr (summarizeToolResult genText).summary) = true
          · simp [hs, hsum, isPermissionEffect]
          · simp [hs, hsum, isPermissionEffect]
        · simp [hs, isPermissionEffect]

/-- C7: when the remote call succeeds but the summarization model call
throws, `onToolCall` returns the raw result with no summary and no raw
duplicate field, and raises no error to the conversation. -/
theorem summarization_failure_returns_raw :
    ∀ (aiTools : List AISDKTool) (configs : List (String × RuntimeConfig))
      (call : ToolCallRequest)
      (exec : RuntimeConfig → String → List (String × String) → CallToolResult)
      (e : String) (tool : AISDKTool) (cfg : RuntimeConfig),
      aiTools.find? (fun t => t.name == call.toolName) = some tool →
      configs.lookup tool.serviceId = some cfg →
      (exec cfg call.toolName call.args).success = true →
      onToolCall aiTools configs call exec (.error e) =
        (.result (exec cfg call.toolName call.args).content none none,
         [.executeTool tool.serviceId call.toolName,
          .summarizeCall call.toolName]) := by
  intro aiTools configs call exec e tool cfg h1 h2 h3
  unfold onToolCall
  simp only [h1, h2]
  simp [h3, summarizeToolResult, truthyStr]

/-- Witness for C7: the concrete `delete_repo` call succeeds, the
summarization model call throws, and the conversation receives the raw
content with no summary and no error. -/
theorem summarization_failure_returns_raw_witness :
    onToolCall [exampleTool] [("github", exampleRuntimeConfig)]
        ⟨"call-1", "delete_repo", []⟩ exampleExec (.error "model unavailable") =
      (.result (some ["repository deleted"]) none none,
       [.executeTool "github" "delete_repo", .summarizeCall "delete_repo"]) := by
  have h := summarization_failure_returns_raw [exampleTool]
    [("github", exampleRuntimeConfig)] ⟨"call-1", "delete_repo", []⟩
    exampleExec "model unavailable" exampleTool exampleRuntimeConfig
    (by decide) (by decide) (by decide)
  simpa using h

/-! ## Theorems about the model-facing manifest of the chat route -/

theorem lookup_map_preserve {β : Type} (m : List (String × β)) (k : String)
    (v : β) (k' : String) (hk : k' ≠ k) :
    (m.map (fun p => if p.1 = k then (k, v) else p)).lookup k' = m.lookup k' := by
  induction m with
  | nil => rfl
  | cons p rest ih =>
    obtain ⟨a, w⟩ := p
    by_cases hp : a = k
    · subst hp
      have h1 : List.map (fun p : String × β => if p.1 = a then (a, v) else p)
          ((a, w) :: rest) =
          (a, v) :: List.map (fun p : String × β => if p.1 = a then (a, v) else p) rest := by
        simp
      rw [h1]
      have hb : (k' == a) = false := beq_eq_false_iff_ne.mpr hk
      simp [List.lookup, hb, ih]
    · have h1 : List.map (fun p : String × β => if p.1 = k then (k, v) else p)
          ((a, w) :: rest) =
          (a, w) :: List.map (fun p : String × β => if p.1 = k then (k, v) else p) rest := by
        simp [hp]
      rw [h1]
      by_cases ha : k' = a
      · subst ha
        simp [List.lookup]
      · have hb : (k' == a) = false := beq_eq_false_iff_ne.mpr ha
        simp [List.lookup, hb, ih]

theorem lookup_map_overwrite_selfG {β : Type} (m : List (String × β))
    (k : String) (v : β) (h : m.any (fun p => p.1 = k) = true) :
    (m.map (fun p => if p.1 = k then (k, v) else p)).lookup k = some v := by
  induction m with
  | nil => simp at h
  | cons p rest ih =>
    obtain ⟨a, w⟩ := p
    by_cases hp : a = k
    · subst hp
      have h1 : List.map (fun p : String × β => if p.1 = a then (a, v) else p)
          ((a, w) :: rest) =
          (a, v) :: List.map (fun p : String × β => if p.1 = a then (a, v) else p) rest := by
        simp
      rw [h1]
      simp [List.lookup]
    · have hrest : rest.any (fun p => p.1 = k) = true := by
        simpa [hp] using h
      have h1 : List.map (fun p : String × β => if p.1 = k then (k, v) else p)
          ((a, w) :: rest) =
          (a, w) :: List.map (fun p : String × β => if p.1 = k then (k, v) else p) rest := by
        simp [hp]
      rw [h1]
      have hb : (k == a) = false := beq_eq_false_iff_ne.mpr (Ne.symm hp)
      simp [List.lookup, hb, ih hrest]

theorem lookup_append_single_new {β : Type} (m : List (String × β))
    (k : String) (v : β) (h : m.any (fun p => p.1 = k) = false) :
    (m ++ [(k, v)]).lookup k = some v := by
  induction m with
  | nil => simp [List.lookup]
  | cons p rest ih =>
    obtain ⟨a, w⟩ := p
    have hp : ¬(a = k) := by
      intro hc
      simp [hc] at h
    have hrest : rest.any (fun p => p.1 = k) = false := by
      simpa [hp] using h
    have hb : (k == a) = false := beq_eq_false_iff_ne.mpr (Ne.symm hp)
    simp [List.lookup, hb, ih hrest]

theorem lookup_append_single_other {β : Type} (m : List (String × β))
    (k : String) (v : β) (k' : String) (hk : k' ≠ k) :
    (m ++ [(k, v)]).lookup k' = m.lookup k' := by
  induction m with
  | nil =>
    have hb : (k' == k) = false := beq_eq_false_iff_ne.mpr hk
    simp [List.lookup, hb]
  | cons p rest ih =>
    obtain ⟨a, w⟩ := p
    by_cases ha : k' = a
    · subst ha
      simp [List.lookup]
    · have hb : (k' == a) = false := beq_eq_false_iff_ne.mpr ha
      simp [List.lookup, hb, ih]

theorem lookup_jsSetKey {β : Type} (m : List (String × β)) (k : String)
    (v : β) (k' : String) :
    (jsSetKey m k v).lookup k' = if k' = k then some v else m.lookup k' := by
  by_cases hk : k' = k
  · subst hk
    rw [if_pos rfl]
    unfold jsSetKey
    split
    · next h => exact lookup_map_overwrite_selfG m k' v h
    · next h => exact lookup_append_single_new m k' v (Bool.eq_false_iff.mpr h)
  · rw [if_neg hk]
    unfold jsSetKey
    split
    · exact lookup_map_preserve m k v k' hk
    · exact lookup_append_single_other m k v k' hk

theorem lookup_jsObjectFromEntries_aux {β : Type} :
    ∀ (l : List (String × β)) (m : List (String × β)) (k : String),
      (l.foldl (fun m p => jsSetKey m p.1 p.2) m).lookup k =
        match lastEntryFor k l with
        | some v => some v
        | none => m.lookup k := by
  intro l
  induction l with
  | nil => intro m k; rfl
  | cons p rest ih =>
    intro m k
    simp only [List.foldl_cons, lastEntryFor]
    rw [ih]
    cases hrest : lastEntryFor k rest with
    | some v => rfl
    | none =>
      rw [lookup_jsSetKey]
      by_cases hk : k = p.1
      · simp [hk]
      · simp [hk, Ne.symm hk]

theorem keys_nodup_jsSetKey {β : Type} (m : List (String × β)) (k : String)
    (v : β) (h : (m.map Prod.fst).Nodup) :
    ((jsSetKey m k v).map Prod.fst).Nodup := by
  unfold jsSetKey
  split
  · next hany =>
    have hkeys : (m.map (fun p => if p.1 = k then (k, v) else p)).map Prod.fst =
        m.map Prod.fst := by
      rw [List.map_map]
      apply List.map_congr_left
      intro p _
      by_cases hp : p.1 = k
      · simp [hp]
      · simp [hp]
    rw [hkeys]
    exact h
  · next hany =>
    have hnotmem : k ∉ m.map Prod.fst := by
      intro hmem
      apply hany
      rw [List.any_eq_true]
      obtain ⟨p, hp, hpk⟩ := List.mem_map.mp hmem
      exact ⟨p, hp, by simp [hpk]⟩
    rw [List.map_append]
    simp only [List.map_cons, List.map_nil]
    rw [List.nodup_append]
    exact ⟨h, List.nodup_singleton k, by
      intro a ha hb
      simp only [List.mem_singleton] at hb
      subst hb
      exact hnotmem ha⟩

theorem keys_nodup_jsObjectFromEntries_aux {β : Type} :
    ∀ (l : List (String × β)) (m : List (String × β)),
      (m.map Prod.fst).Nodup →
      ((l.foldl (fun m p => jsSetKey m p.1 p.2) m).map Prod.fst).Nodup := by
  intro l
  induction l with
  | nil => intro m h; exact h
  | cons p rest ih =>
    intro m h
    simp only [List.foldl_cons]
    exact ih (jsSetKey m p.1 p.2) (keys_nodup_jsSetKey m p.1 p.2 h)

/-- C5 counterexample: with two enabled services exposing `create_issue`,
the manifest the route hands to the model is byte-identical to the one
where the first service's tool never existed — the duplicate is resolved
silently (nothing anywhere in the flow's output differs), by
last-enumerated-wins rather than the claim's first-registered tie-break
(the output differs from keeping the first). -/
theorem duplicate_tool_name_silent_overwrite :
    routeAiTools [dupToolA, dupToolB] = routeAiTools [dupToolB] ∧
    routeAiTools [dupToolA, dupToolB] ≠ routeAiTools [dupToolA] := by
  exact ⟨rfl, by decide⟩

/-- C5 (amended): duplicate tool names are not surfaced; the route's
manifest is built by object-key overwrite, so for every name the payload
is that of the last enumerated tool with that name, and the manifest never
contains two entries with one name. -/
theorem routeAiTools_last_wins_and_nodup :
    ∀ (tools : List RouteTool),
      ((routeAiTools tools).map Prod.fst).Nodup ∧
      ∀ name, (routeAiTools tools).lookup name =
        lastEntryFor name (tools.map fun t => (t.name, routeToolPayload t)) := by
  intro tools
  constructor
  · exact keys_nodup_jsObjectFromEntries_aux _ [] (by simp)
  · intro name
    unfold routeAiTools jsObjectFromEntries
    rw [lookup_jsObjectFromEntries_aux]
    cases lastEntryFor name (tools.map fun t => (t.name, routeToolPayload t)) with
    | some v => rfl
    | none => rfl

/-! ## Theorems about the config store enumeration -/

theorem mem_of_lookup_eq_some {β : Type} (l : List (String × β)) (k : String)
    (v : β) (h : l.lookup k = some v) : (k, v) ∈ l := by
  induction l with
  | nil => simp [List.lookup] at h
  | cons p rest ih =>
    obtain ⟨a, w⟩ := p
    by_cases hk : k = a
    · subst hk
      simp [List.lookup] at h
      rw [← h]
      exact List.mem_cons_self _ _
    · have hb : (k == a) = false := beq_eq_false_iff_ne.mpr hk
      simp only [List.lookup, hb] at h
      exact List.mem_cons_of_mem _ (ih h)

theorem isPrefixOf_eq_true_iff :
    ∀ (p l : List Char), p.isPrefixOf l = true ↔ ∃ t, l = p ++ t := by
  intro p
  induction p with
  | nil =>
    intro l
    constructor
    · intro _
      exact ⟨l, rfl⟩
    · intro _
      cases l <;> rfl
  | cons c cs ih =>
    intro l
    cases l with
    | nil =>
      constructor
      · intro h
        simp [List.isPrefixOf] at h
      · rintro ⟨t, ht⟩
        simp at ht
    | cons d ds =>
      constructor
      · intro h
        have h2 : (c == d) = true ∧ cs.isPrefixOf ds = true := by
          simpa [List.isPrefixOf, Bool.and_eq_true] using h
        obtain ⟨t, ht⟩ := (ih ds).mp h2.2
        refine ⟨t, ?_⟩
        have hc : c = d := eq_of_beq h2.1
        simp [List.cons_append, ht, hc]
      · rintro ⟨t, ht⟩
        rw [List.cons_append] at ht
        injection ht with h1 h2
        subst h1
        have := (ih ds).mpr ⟨t, h2⟩
        simp [List.isPrefixOf, this]

theorem jsReplaceFirstL_append (pfx t : List Char) (hp : pfx ≠ []) :
    jsReplaceFirstL pfx (pfx ++ t) = t := by
  cases pfx with
  | nil => exact absurd rfl hp
  | cons c pr =>
    rw [List.cons_append]
    have hpre : (c :: pr).isPrefixOf (c :: (pr ++ t)) = true := by
      rw [← List.cons_append]
      exact (isPrefixOf_eq_true_iff _ _).mpr ⟨t, rfl⟩
    unfold jsReplaceFirstL
    rw [if_pos hpre]
    simp [List.drop_succ_cons, List.drop_left]

/-- C10: whenever the tool-selection mapping has been saved,
`getServiceIds` reports the spurious service id `tool-selection`,
`getAllServiceConfigs` includes an entry for it, `loadAllServiceConfigs`
excludes it — so the two enumerate-all-configs functions disagree — and
the registry's per-service enumeration for the nonexistent service
`tool-selection` is attempted and fails with the URL-validation error,
before any network activity. -/
theorem tool_selection_key_confuses_service_enumeration :
    ∀ (st : LocalStorage) (entries : List (String × Bool)),
      st.lookup TOOL_SELECTION_KEY = some (.selection entries) →
      "tool-selection" ∈ getServiceIds st ∧
      ("tool-selection", StoredValue.selection entries) ∈ getAllServiceConfigs st ∧
      (∀ v, ("tool-selection", v) ∉ loadAllServiceConfigs st) ∧
      ∀ (s : ServerState) (vu : String → Bool) (cr : Except String Unit)
        (lr : Except String (List MCPToolDefinition)),
        (listMCPToolsClient st s "tool-selection" vu cr lr).1 =
          ⟨false, none, some "URL is required for HTTP transport"⟩ ∧
        (listMCPToolsClient st s "tool-selection" vu cr lr).2.1 = [] := by
  intro st entries h
  have hmem : (TOOL_SELECTION_KEY, StoredValue.selection entries) ∈ st :=
    mem_of_lookup_eq_some st TOOL_SELECTION_KEY _ h
  have hload : loadServiceConfig st "tool-selection" =
      some (.selection entries) := by
    have hk : getStorageKey "tool-selection" = TOOL_SELECTION_KEY := by decide
    unfold loadServiceConfig
    rw [hk]
    exact h
  refine ⟨?_, ?_, ?_, ?_⟩
  · apply List.mem_filterMap.mpr
    refine ⟨(TOOL_SELECTION_KEY, .selection entries), hmem, ?_⟩
    dsimp only
    decide
  · apply List.mem_filterMap.mpr
    refine ⟨(TOOL_SELECTION_KEY, .selection entries), hmem, ?_⟩
    have hstart : jsStartsWith TOOL_SELECTION_KEY STORAGE_PREFIX = true := by
      decide
    have hrep : jsReplaceFirst TOOL_SELECTION_KEY (STORAGE_PREFIX ++ "-") =
        "tool-selection" := by decide
    dsimp only
    simp only [hstart, if_true, hrep, hload]
  · intro v hv
    obtain ⟨⟨k, w⟩, hkmem, hf⟩ := List.mem_filterMap.mp hv
    simp only at hf
    by_cases hc : (jsStartsWith k (STORAGE_PREFIX ++ "-") &&
        !(jsIncludes k "-tool-selection")) = true
    · rw [if_pos hc] at hf
      simp only [Option.some.injEq, Prod.mk.injEq] at hf
      obtain ⟨hrep, _⟩ := hf
      obtain ⟨hsw, hnot⟩ := Bool.and_eq_true_iff.mp hc
      have hni : jsIncludes k "-tool-selection" = false := by
        simpa using hnot
      obtain ⟨t, ht⟩ := (isPrefixOf_eq_true_iff _ _).mp hsw
      have hreduce : jsReplaceFirstL (STORAGE_PREFIX ++ "-").data k.data = t := by
        rw [ht]
        exact jsReplaceFirstL_append _ t (by decide)
      have ht2 : t = ("tool-selection" : String).data := by
        have : String.mk t = "tool-selection" := by
          rw [← hrep]
          unfold jsReplaceFirst
          rw [hreduce]
        exact congrArg String.data this
      have hkdata : k.data = ("mcp-client-tool-selection" : String).data := by
        rw [ht, ht2]
        decide
      have hinc : jsIncludes k "-tool-selection" = true := by
        unfold jsIncludes
        rw [hkdata]
        decide
      rw [hinc] at hni
      cases hni
    · rw [if_neg hc] at hf
      cases hf
  · intro s vu cr lr
    constructor <;>
      simp [listMCPToolsClient, hload, StoredValue.toRuntimeConfig,
        listMCPToolsAction]

/-- Witness for C10 at a concrete storage state holding one real service
config and the saved tool-selection mapping. -/
theorem tool_selection_key_confusion_witness :
    "tool-selection" ∈ getServiceIds exampleStorage ∧
    (listMCPToolsClient exampleStorage ⟨0, []⟩ "tool-selection"
        (fun _ => true) (.ok ()) (.ok [])).1 =
      ⟨false, none, some "URL is required for HTTP transport"⟩ := by
  have h := tool_selection_key_confuses_service_enumeration exampleStorage
    [("github:delete_repo", false)] (by decide)
  exact ⟨h.1, (h.2.2.2 ⟨0, []⟩ (fun _ => true) (.ok ()) (.ok [])).1⟩
